import Mathlib

/-!
Verification of the paragraph-reconstruction and field-classification engine
(`text_processor.py` and `advanced_pdf_extractor.py`).

Texts are modelled as `List Char` (Python strings are sequences of Unicode
code points, and Python `len` counts code points).  Font sizes are modelled
as `ℚ` (the source stores Python numbers and only adds, halves and compares
them; IEEE rounding is not exercised by any claim).  All definitions are
translated from the Python source; each definition's comment names the
source function it embeds.
-/

/-- Python `str.isspace`-style whitespace as used by `str.strip()` and the
regex class `\s` (ASCII subset; the repository's data is ASCII/CJK, and CJK
ideographs are not whitespace). -/
def pyIsSpace (c : Char) : Bool :=
  c == ' ' || c == '\t' || c == '\n' || c == '\r' || c == '\x0b' || c == '\x0c'

/-- Python `str.strip()`: drop leading and trailing whitespace. -/
def pyStrip (s : List Char) : List Char :=
  ((s.dropWhile pyIsSpace).reverse.dropWhile pyIsSpace).reverse

/-- ASCII lowercasing of one character, as Python `str.lower()` acts on the
ASCII range (CJK characters are unaffected). -/
def pyLowerChar (c : Char) : Char :=
  if 'A' ≤ c && c ≤ 'Z' then Char.ofNat (c.toNat + 32) else c

/-- Python `str.lower()`. -/
def pyLower (s : List Char) : List Char := s.map pyLowerChar

/-- Regex class `[A-Z]`. -/
def isUpperLatin (c : Char) : Bool := 'A' ≤ c && c ≤ 'Z'

/-- Regex class `[a-z]`. -/
def isLowerLatin (c : Char) : Bool := 'a' ≤ c && c ≤ 'z'

/-- Regex class `[A-Za-z]`. -/
def isLatin (c : Char) : Bool := isUpperLatin c || isLowerLatin c

/-- Regex class `\d` (ASCII digits, which is all the repository's data uses). -/
def isDigitChar (c : Char) : Bool := '0' ≤ c && c ≤ '9'

/-- Regex class `[一-鿿]` (CJK ideographs). -/
def isCJK (c : Char) : Bool := 0x4e00 ≤ c.toNat && c.toNat ≤ 0x9fff

/-- Sentence-terminal punctuation, regex class `[.!?。！？]`. -/
def isTerminalPunct (c : Char) : Bool :=
  c == '.' || c == '!' || c == '?' || c == '。' || c == '！' || c == '？'

/-- `re.search(r'[...]$', s)` for a character-class pattern: does the last
character satisfy the predicate?  (Inputs are stripped, so the "before a
final newline" variant of `$` cannot fire.) -/
def endsSatisfying (p : Char → Bool) (s : List Char) : Bool :=
  match s.getLast? with
  | some c => p c
  | none => false

/-- `re.match(r'^[...]', s)` for a character-class pattern: does the first
character satisfy the predicate? -/
def startsSatisfying (p : Char → Bool) (s : List Char) : Bool :=
  match s.head? with
  | some c => p c
  | none => false

/-- Does `pre` occur at the start of `s` (Python `str.startswith`)? -/
def startsWithSeq : List Char → List Char → Bool
  | [], _ => true
  | _ :: _, [] => false
  | p :: ps, c :: cs => p == c && startsWithSeq ps cs

/-- Python substring test `pat in s`. -/
def isSubstring (pat : List Char) : List Char → Bool
  | [] => startsWithSeq pat []
  | c :: rest => startsWithSeq pat (c :: rest) || isSubstring pat rest

/-- Worker for `replaceAll`; the fuel argument makes the recursion
structural and never runs out, since `pat` is non-empty at every call and
each step consumes at least one character of `s`. -/
def replaceAllAux (pat rep : List Char) : Nat → List Char → List Char
  | 0, s => s
  | _ + 1, [] => []
  | fuel + 1, c :: rest =>
    if startsWithSeq pat (c :: rest) then
      rep ++ replaceAllAux pat rep fuel ((c :: rest).drop pat.length)
    else
      c :: replaceAllAux pat rep fuel rest

/-- Python `str.replace(pat, rep)`: replace all non-overlapping occurrences,
scanning left to right.  (Every pattern the source replaces is non-empty.) -/
def replaceAll (pat rep : List Char) (s : List Char) : List Char :=
  if pat.isEmpty then s else replaceAllAux pat rep s.length s

/-- One style span of a fragment, as produced by `extract_text_with_styles`:
the keys `text`, `is_italic`, `is_bold` actually consulted by the engine. -/
structure StyleSpan where
  text : List Char
  is_italic : Bool
  is_bold : Bool
  deriving DecidableEq

/-- One text block (layout-line fragment / paragraph accumulator): the keys
`text`, `styles`, `avg_font_size` of the Python dict.  Well-formed fragments
always carry all three keys, so the source's `"styles" in block` and
`"avg_font_size" in block` guards are always satisfied. -/
structure TextBlock where
  text : List Char
  styles : List StyleSpan
  avg_font_size : ℚ
  deriving DecidableEq

/-- `TextProcessor._is_new_paragraph(text, block)`; `text` is the stripped
block text (as at the call site). -/
def isNewParagraph (text : List Char) (b : TextBlock) : Bool :=
  -- avg_font_size > 14
  if b.avg_font_size > 14 then true
  -- any style is bold
  else if b.styles.any (fun st => st.is_bold) then true
  -- re.match(r'^[A-Z][a-zA-Z\s]{10,}', text)
  else if (match text with
           | c :: rest =>
             isUpperLatin c && decide (10 ≤ rest.length) &&
               (rest.take 10).all (fun d => isLatin d || pyIsSpace d)
           | [] => false) then true
  -- re.match(r'^[一-鿿]{2,}[：:：]', text)
  else if (let r := (text.takeWhile isCJK).length
           decide (2 ≤ r) &&
             (match (text.drop r).head? with
              | some c => c == '：' || c == ':'
              | none => false)) then true
  -- re.match(r'^\d+[\.\)]\s*', text)
  else if (let r := (text.takeWhile isDigitChar).length
           decide (1 ≤ r) &&
             (match (text.drop r).head? with
              | some c => c == '.' || c == ')'
              | none => false)) then true
  -- any(text.startswith(k) for k in chapter_keywords)
  else if [("Chapter".toList), ("Part".toList), ("Section".toList),
           ("第".toList), ("章".toList), ("節".toList), ("篇".toList)].any
            (fun k => startsWithSeq k text) then true
  else false

/-- `TextProcessor._should_merge_texts(text1, text2)`. -/
def shouldMergeTexts (text1 text2 : List Char) : Bool :=
  let t1 := pyStrip text1
  let t2 := pyStrip text2
  -- if re.search(r'[.!?。！？]$', text1): return False
  if endsSatisfying isTerminalPunct t1 then false
  -- if re.match(r'^[A-Z]', text2): merge iff truncated-looking
  else if startsSatisfying isUpperLatin t2 then
    endsSatisfying (fun c => c == ',' || c == '，' || c == '-' || pyIsSpace c) t1 ||
      decide (t1.length < 30) || !t1.any isTerminalPunct
  -- if re.match(r'^[a-z]', text2): return True
  else if startsSatisfying isLowerLatin t2 then true
  -- if re.search(r'[-,，\s]$', text1): return True
  else if endsSatisfying (fun c => c == '-' || c == ',' || c == '，' || pyIsSpace c) t1 then true
  -- if len(text1) < 50 and len(text2) < 50: return True
  else if decide (t1.length < 50) && decide (t2.length < 50) then true
  else false

/-- `TextProcessor._smart_join_texts(text1, text2)`. -/
def smartJoinTexts (text1 text2 : List Char) : List Char :=
  let t1 := pyStrip text1
  let t2 := pyStrip text2
  -- if text1.endswith('-'): return text1[:-1] + text2
  if endsSatisfying (fun c => c == '-') t1 then t1.dropLast ++ t2
  -- if text1.endswith(' '): return text1 + text2
  else if endsSatisfying (fun c => c == ' ') t1 then t1 ++ t2
  -- if re.match(r'^[a-z]', text2): return text1 + ' ' + text2
  else if startsSatisfying isLowerLatin t2 then t1 ++ ' ' :: t2
  -- if re.search(r'[,，;；]$', text1): return text1 + ' ' + text2
  else if endsSatisfying (fun c => c == ',' || c == '，' || c == ';' || c == '；') t1 then
    t1 ++ ' ' :: t2
  -- default
  else t1 ++ ' ' :: t2

/-- The `avg_font_size` update applied on every merge in
`clean_and_merge_paragraphs`: the pairwise mean of the paragraph's current
average and the incoming fragment's average. -/
def mergeAvg (current_size block_size : ℚ) : ℚ := (current_size + block_size) / 2

/-- The body of the `for block in text_blocks` loop of
`TextProcessor.clean_and_merge_paragraphs`.  The state is the pair
(`merged_blocks`, `current_block`). -/
def cleanStep (acc : List TextBlock × Option TextBlock) (block : TextBlock) :
    List TextBlock × Option TextBlock :=
  let text := pyStrip block.text
  if text.isEmpty then acc
  else
    match acc.2 with
    | none => (acc.1, some block)          -- current_block = block.copy()
    | some current =>
      if isNewParagraph text block then    -- start a new paragraph
        (acc.1 ++ [current], some block)
      else if shouldMergeTexts current.text text then
        (acc.1,
         some { current with
                  text := smartJoinTexts current.text text,
                  styles := current.styles ++ block.styles,
                  avg_font_size := mergeAvg current.avg_font_size block.avg_font_size })
      else                                 -- no merge, start a new paragraph
        (acc.1 ++ [current], some block)

/-- `TextProcessor.clean_and_merge_paragraphs(text_blocks)`. -/
def cleanAndMergeParagraphs (text_blocks : List TextBlock) : List TextBlock :=
  let res := text_blocks.foldl cleanStep ([], none)
  res.1 ++ (match res.2 with | some c => [c] | none => [])

/-- `AdvancedPDFExtractor.apply_html_formatting(text_block)`: collect the
stripped texts of italic spans that occur in the block text, then wrap each
occurrence in an italic tag unless that exact wrapped form is already
present. -/
def applyHtmlFormatting (block : TextBlock) : List Char :=
  if block.styles.isEmpty then block.text    -- "if not text_block.get('styles')"
  else
    let text := block.text
    let has_italic := block.styles.any (fun st => st.is_italic)
    if has_italic then
      let italic_parts :=
        (block.styles.filter (fun st =>
          st.is_italic && !(pyStrip st.text).isEmpty &&
            isSubstring (pyStrip st.text) text)).map (fun st => pyStrip st.text)
      italic_parts.foldl (fun formatted part =>
        let wrapped := ("<i>".toList) ++ part ++ ("</i>".toList)
        if isSubstring wrapped formatted then formatted
        else replaceAll part wrapped formatted) text
    else text

/-- `re.sub(r'\s+', ' ', s)`: collapse every whitespace run to one space.
The boolean records whether the previous character was part of a run. -/
def collapseWsAux : Bool → List Char → List Char
  | _, [] => []
  | prevWs, c :: rest =>
    if pyIsSpace c then
      if prevWs then collapseWsAux true rest else ' ' :: collapseWsAux true rest
    else c :: collapseWsAux false rest

/-- `re.sub(r'\s+([set])', r'\1', s)` for a literal character class `set`:
delete each whitespace run immediately followed by a character of `set`.
Fuel = length of the remaining text (each step consumes at least one
character, so the fuel never runs out). -/
def subSpaceBeforeAux (set : List Char) : Nat → List Char → List Char
  | 0, s => s
  | _ + 1, [] => []
  | fuel + 1, c :: rest =>
    if pyIsSpace c then
      let ws := (c :: rest).takeWhile pyIsSpace
      let after := (c :: rest).dropWhile pyIsSpace
      match after with
      | d :: rest2 =>
        if set.contains d then d :: subSpaceBeforeAux set fuel rest2
        else ws ++ subSpaceBeforeAux set fuel after
      | [] => ws
    else c :: subSpaceBeforeAux set fuel rest

/-- See `subSpaceBeforeAux`. -/
def subSpaceBefore (set : List Char) (s : List Char) : List Char :=
  subSpaceBeforeAux set s.length s

/-- `re.sub(r'\(\s+', '(', s)`: delete whitespace runs right after an
opening parenthesis. -/
def subOpenParenAux : Nat → List Char → List Char
  | 0, s => s
  | _ + 1, [] => []
  | fuel + 1, c :: rest =>
    if c == '(' then
      match rest with
      | d :: _ =>
        if pyIsSpace d then '(' :: subOpenParenAux fuel (rest.dropWhile pyIsSpace)
        else '(' :: subOpenParenAux fuel rest
      | [] => ['(']
    else c :: subOpenParenAux fuel rest

/-- `TextProcessor.clean_text_content(text)`. -/
def cleanTextContent (text : List Char) : List Char :=
  if text.isEmpty then text
  else
    let t := collapseWsAux false text                      -- re.sub(r'\s+', ' ', text)
    let t := pyStrip t                                     -- text.strip()
    let t := subSpaceBefore ['.', '!', '?', '。', '！', '？'] t  -- fix space before periods
    let t := subSpaceBefore [',', '，', ';', '；'] t        -- fix space before commas
    let t := subOpenParenAux t.length t                    -- re.sub(r'\(\s+', '(', t)
    subSpaceBefore [')'] t                                 -- re.sub(r'\s+\)', ')', t)

/-- Python `str.split()`: split on whitespace runs, discarding empties. -/
def pySplitWsAux : Nat → List Char → List (List Char)
  | 0, _ => []
  | _ + 1, [] => []
  | fuel + 1, s =>
    let s1 := s.dropWhile pyIsSpace
    match s1 with
    | [] => []
    | _ :: _ => s1.takeWhile (fun c => !pyIsSpace c) ::
        pySplitWsAux fuel (s1.dropWhile (fun c => !pyIsSpace c))

/-- Python `str.split()`. -/
def pySplitWs (s : List Char) : List (List Char) := pySplitWsAux s.length s

/-- `re.search(r'\d{4}', s)`: four consecutive digits occur somewhere. -/
def hasFourDigits : List Char → Bool
  | [] => false
  | c :: rest =>
    (isDigitChar c && (rest.take 3).all isDigitChar && decide (3 ≤ rest.length)) ||
      hasFourDigits rest

/-- Python `sorted(blocks, key=..., reverse=True)` is a stable descending
sort; insertion via `foldr` keeps the original order of equal keys. -/
def insertByKeyDesc {α : Type} (key : α → ℚ) (x : α) : List α → List α
  | [] => [x]
  | y :: ys => if key x ≥ key y then x :: y :: ys else y :: insertByKeyDesc key x ys

/-- Stable descending sort by a rational key (Python `sorted` with
`reverse=True`). -/
def sortByKeyDesc {α : Type} (key : α → ℚ) (l : List α) : List α :=
  l.foldr (insertByKeyDesc key) []

/-- Title-candidate construction of `smart_classify_content` (the loop over
`sorted_blocks[:5]`), yielding `(text, score, block)` triples. -/
def titleCandidates (sorted_blocks : List TextBlock) : List (List Char × ℚ × TextBlock) :=
  (sorted_blocks.take 5).filterMap (fun block =>
    let text := pyStrip block.text
    if decide (10 < text.length) && decide (text.length < 200) then
      let is_large_font := block.avg_font_size ≥ 14
      let has_bold := block.styles.any (fun st => st.is_bold)
      -- re.match(r'^[A-Z][A-Za-z\s:]+$', text)
      let latin_title_shape :=
        match text with
        | c :: rest =>
          isUpperLatin c && !rest.isEmpty &&
            rest.all (fun d => isLatin d || pyIsSpace d || d == ':')
        | [] => false
      let is_title_like :=
        latin_title_shape ||
          (text.any isLatin && decide (2 ≤ (pySplitWs text).length)) ||
          (text.any isCJK && text.any isLatin)
      let lower := pyLower text
      let is_not_title :=
        isSubstring ("publisher".toList) lower || isSubstring ("isbn".toList) lower ||
          isSubstring ("pages".toList) lower || isSubstring ("price".toList) lower ||
          startsWithSeq ("by ".toList) lower ||
          hasFourDigits text ||
          decide ((pySplitWs text).length < 2)
      if is_title_like && !is_not_title && (decide is_large_font || has_bold) then
        some (text, block.avg_font_size + (if has_bold then 2 else 0), block)
      else none
    else none)

/-- Title selection of `smart_classify_content`: sort the candidates by
score (stable, descending), format the winner's block, and ensure a single
bold wrapper. -/
def titleSelect (sorted_blocks : List TextBlock) : List Char :=
  match sortByKeyDesc (fun t => t.2.1) (titleCandidates sorted_blocks) with
  | [] => []
  | (_, _, block) :: _ =>
    let formatted_title := applyHtmlFormatting block
    if startsWithSeq ("<b>".toList) formatted_title then formatted_title
    else ("<b>".toList) ++ formatted_title ++ ("</b>".toList)

/-- The per-block condition of the localized (CJK) title scan of
`smart_classify_content`. -/
def chineseTitleCond (title : List Char) (block : TextBlock) : Bool :=
  let text := pyStrip block.text
  let chinese_chars := (text.filter isCJK).length
  let total_chars := (text.filter (fun c => !pyIsSpace c)).length
  decide (3 ≤ chinese_chars) &&
    decide ((chinese_chars : ℚ) / (max total_chars 1 : ℚ) > 3 / 5) &&
    decide (5 < text.length) && decide (text.length < 100) &&
    !(text = replaceAll ("</b>".toList) [] (replaceAll ("<b>".toList) [] title)) &&
    !([("出版".toList), ("頁數".toList), ("價格".toList), ("ISBN".toList)].any
        (fun kw => isSubstring kw text))

/-- Localized-title selection of `smart_classify_content` (first matching
block in original order, formatted and cleaned). -/
def chineseTitleSelect (merged_blocks : List TextBlock) (title : List Char) : List Char :=
  match merged_blocks.find? (chineseTitleCond title) with
  | some b => cleanTextContent (applyHtmlFormatting b)
  | none => []

/-- Case-insensitive prefix match (the person-field regexes are compiled
with `re.IGNORECASE`). -/
def startsWithIgnoreCase : List Char → List Char → Bool
  | [], _ => true
  | _ :: _, [] => false
  | p :: ps, c :: cs => pyLowerChar p == pyLowerChar c && startsWithIgnoreCase ps cs

/-- The tail `\s*\d+\s*$` of the person-field regexes: optional whitespace,
at least one digit, optional whitespace, end of string.  (Whitespace and
digit characters are disjoint, so greedy backtracking reduces to this
direct decomposition.) -/
def tailNumMatch (r : List Char) : Bool :=
  let r1 := r.dropWhile pyIsSpace
  let ds := r1.takeWhile isDigitChar
  !ds.isEmpty && (r1.drop ds.length).all pyIsSpace

/-- The tail `(?:\s*\d+\s*$|$)`: the first alternative is preferred, but
both yield the same captured group, so only existence matters. -/
def personTailOk (r : List Char) : Bool := tailNumMatch r || r.isEmpty

/-- The lazy group `([^,\n]+?)` (or `([^,\n\d]+?)` for the author variant)
followed by the tail: try group lengths 1, 2, … up to the maximal run of
class characters and return the first group whose remainder matches the
tail — exactly the order a lazy quantifier explores. -/
def personGroup (classOk : Char → Bool) (afterSep : List Char) : Option (List Char) :=
  let maxG := (afterSep.takeWhile classOk).length
  (List.range maxG).findSome? (fun i =>
    if personTailOk (afterSep.drop (i + 1)) then some (afterSep.take (i + 1)) else none)

/-- The greedy separator `[:\s]*` followed by the group: try separator
lengths from the maximal run of `:`/whitespace characters down to 0 —
exactly the order a greedy quantifier explores under backtracking. -/
def personSepGroup (classOk : Char → Bool) (rest : List Char) : Option (List Char) :=
  let maxSep := (rest.takeWhile (fun c => c == ':' || pyIsSpace c)).length
  (List.range (maxSep + 1)).findSome? (fun j =>
    personGroup classOk (rest.drop (maxSep - j)))

/-- `re.search(rf"{keyword}[:\s]*([^,\n]+?)(?:\s*\d+\s*$|$)", line,
re.IGNORECASE)` (with `classOk` the group's character class): try start
positions left to right and return the captured group of the first
position that allows a full match. -/
def personSearch (kw : List Char) (classOk : Char → Bool) : List Char → Option (List Char)
  | [] => none
  | c :: rest =>
    match (if startsWithIgnoreCase kw (c :: rest) then
             personSepGroup classOk ((c :: rest).drop kw.length)
           else none) with
    | some g => some g
    | none => personSearch kw classOk rest

/-- `re.sub(r'\s*\d+\s*$', '', s)`: remove a trailing
whitespace–digits–whitespace block, if the digit run is non-empty. -/
def stripTrailingNumBlock (s : List Char) : List Char :=
  let r := s.reverse
  let r1 := r.dropWhile pyIsSpace
  let ds := r1.takeWhile isDigitChar
  if ds.isEmpty then s else ((r1.drop ds.length).dropWhile pyIsSpace).reverse

/-- `re.sub(r'[,，。\.]+$', '', s)`: strip a trailing run of list/sentence
punctuation. -/
def stripTrailingPunct (s : List Char) : List Char :=
  (s.reverse.dropWhile (fun c => c == ',' || c == '，' || c == '。' || c == '.')).reverse

/-- `re.sub(r'\s*pages?\s*\d*\s*$', '', s, re.IGNORECASE)`.  The third
positional argument of `re.sub` is `count`, so this call is actually
case-sensitive with `count = 2`; the pattern is anchored at the end and
requires the literal `page`, so at most one substitution can happen in the
single left-to-right pass, and `count = 2` behaves like `count = 1`.
Parsed from the end: whitespace*, digits*, whitespace*, optional `s`,
`page`, whitespace*. -/
def stripPagesSuffix (s : List Char) : List Char :=
  let r := s.reverse
  let r1 := r.dropWhile pyIsSpace
  let r2 := (r1.dropWhile isDigitChar).dropWhile pyIsSpace
  let r3 := match r2 with
            | 's' :: more => more
            | _ => r2
  if startsWithSeq ("egap".toList) r3 then
    ((r3.drop 4).dropWhile pyIsSpace).reverse
  else s

/-- Does `re.search(r'^\d+$', s)` succeed, i.e. is `s` a non-empty digit
string? -/
def isAllDigits (s : List Char) : Bool := !s.isEmpty && s.all isDigitChar

/-- Author extraction for one keyword of `author_keywords`: regex search
with the digit-free group class, then strip trailing digits and trailing
punctuation, then the length/pure-number acceptance check. -/
def authorTryKeyword (kw : List Char) (line_clean lower : List Char) : Option (List Char) :=
  if isSubstring kw lower && !isSubstring ("translator".toList) lower &&
      !isSubstring ("illustrator".toList) lower then
    match personSearch kw (fun c => !(c == ',' || c == '\n' || isDigitChar c)) line_clean with
    | some g =>
      let author := stripTrailingPunct (stripTrailingNumBlock (pyStrip g))
      if decide (1 < author.length) && !isAllDigits author then some author else none
    | none => none
  else none

/-- The `for keyword in author_keywords` loop: first keyword that yields an
accepted name wins. -/
def authorScan (line_clean lower : List Char) : Option (List Char) :=
  [("author".toList), ("作者".toList), ("by".toList)].findSome?
    (fun kw => authorTryKeyword kw line_clean lower)

/-- Translator extraction for one keyword of `translator_keywords`. -/
def translatorTryKeyword (kw : List Char) (line_clean lower : List Char) : Option (List Char) :=
  if isSubstring kw lower then
    match personSearch kw (fun c => !(c == ',' || c == '\n')) line_clean with
    | some g =>
      let translator := stripTrailingPunct (stripTrailingNumBlock (pyStrip g))
      let translator := stripPagesSuffix translator
      if decide (1 < translator.length) && !isAllDigits translator then some translator
      else none
    | none => none
  else none

/-- The `for keyword in translator_keywords` loop. -/
def translatorScan (line_clean lower : List Char) : Option (List Char) :=
  [("translator".toList), ("翻譯".toList), ("translated by".toList)].findSome?
    (fun kw => translatorTryKeyword kw line_clean lower)

/-- Illustrator extraction for one keyword of `illustrator_keywords`. -/
def illustratorTryKeyword (kw : List Char) (line_clean lower : List Char) :
    Option (List Char) :=
  if isSubstring kw lower && !isSubstring ("publisher".toList) lower &&
      !isSubstring ("出版".toList) lower then
    match personSearch kw (fun c => !(c == ',' || c == '\n')) line_clean with
    | some g =>
      let illustrator := stripTrailingPunct (stripTrailingNumBlock (pyStrip g))
      if decide (1 < illustrator.length) && !isAllDigits illustrator &&
          !isSubstring ("publish".toList) (pyLower illustrator) then some illustrator
      else none
    | none => none
  else none

/-- The `for keyword in illustrator_keywords` loop. -/
def illustratorScan (line_clean lower : List Char) : Option (List Char) :=
  [("illustrator".toList), ("插畫".toList), ("illustrated by".toList)].findSome?
    (fun kw => illustratorTryKeyword kw line_clean lower)

/-- State of the person-field loop of `smart_classify_content`: the three
person fields plus the `used_lines` set (modelled as a list; only
membership is observed). -/
structure PersonState where
  author : List Char
  translator : List Char
  illustrator : List Char
  used_lines : List (List Char)
  deriving DecidableEq

/-- One iteration of the `for line in all_formatted_text` person loop.  A
line that is empty or already consumed is skipped; otherwise each still-
empty field in turn tries to extract from the line, adding it to
`used_lines` on success.  (The consumed check happens only at the top of
the iteration, so several fields may extract from the same line within one
iteration.) -/
def personStep (ps : PersonState) (line : List Char) : PersonState :=
  let line_clean := pyStrip line
  if line_clean.isEmpty || ps.used_lines.contains line_clean then ps
  else
    let lower := pyLower line_clean
    let s1 :=
      if ps.author.isEmpty then
        match authorScan line_clean lower with
        | some a => { ps with author := a, used_lines := line_clean :: ps.used_lines }
        | none => ps
      else ps
    let s2 :=
      if s1.translator.isEmpty then
        match translatorScan line_clean lower with
        | some t => { s1 with translator := t, used_lines := line_clean :: s1.used_lines }
        | none => s1
      else s1
    if s2.illustrator.isEmpty then
      match illustratorScan line_clean lower with
      | some i => { s2 with illustrator := i, used_lines := line_clean :: s2.used_lines }
      | none => s2
    else s2

/-- The person-field loop over all formatted lines. -/
def personLoop (all_formatted_text : List (List Char)) : PersonState :=
  all_formatted_text.foldl personStep ⟨[], [], [], []⟩

/-- `" ".join(parts)`. -/
def joinSpace (parts : List (List Char)) : List Char :=
  List.intercalate [' '] parts

/-- The exclusion keyword list of the Detail collection loop. -/
def detailExcludeKeywords : List (List Char) :=
  [("publisher".toList), ("isbn".toList), ("pages".toList), ("price".toList),
   ("format".toList), ("volume".toList),
   ("出版社".toList), ("頁數".toList), ("價格".toList), ("格式".toList),
   ("尺寸".toList), ("版次".toList),
   ("copyright".toList), ("版權".toList), ("printed".toList), ("印刷".toList),
   ("edition".toList), ("版本".toList), ("publication date".toList), ("出版日期".toList)]

/-- The `is_already_used` check of the Detail loop: the line coincides with
the (markup-stripped) title or the localized title, or contains one of the
non-empty person fields. -/
def detailAlreadyUsed (title chinese author translator illustrator line_clean :
    List Char) : Bool :=
  line_clean = replaceAll ("</b>".toList) [] (replaceAll ("<b>".toList) [] title) ||
    line_clean = chinese ||
    (!author.isEmpty && isSubstring author line_clean) ||
    (!translator.isEmpty && isSubstring translator line_clean) ||
    (!illustrator.isEmpty && isSubstring illustrator line_clean)

/-- The `is_meaningful` check of the Detail loop: length above 10, not a
pure number, not a pure upper-case acronym. -/
def detailMeaningful (line_clean : List Char) : Bool :=
  decide (10 < line_clean.length) && !isAllDigits line_clean &&
    !(decide (2 ≤ line_clean.length) && line_clean.all isUpperLatin)

/-- The Detail collection loop plus the final length cap of
`smart_classify_content`: unclaimed, non-excluded, meaningful lines are
space-joined; if the result exceeds 500 characters it is truncated to its
first 500 characters plus an ellipsis; an empty collection leaves the field
empty. -/
def detailCollect (all_formatted_text : List (List Char))
    (used_lines : List (List Char))
    (title chinese author translator illustrator : List Char) : List Char :=
  let detail_content := all_formatted_text.filterMap (fun line =>
    let line_clean := pyStrip line
    if line_clean.isEmpty || used_lines.contains line_clean then none
    else
      let lower := pyLower line_clean
      let is_exclude := detailExcludeKeywords.any (fun kw => isSubstring kw lower)
      if !is_exclude &&
          !detailAlreadyUsed title chinese author translator illustrator line_clean &&
          detailMeaningful line_clean then
        some line_clean
      else none)
  if detail_content.isEmpty then []
  else
    let detail_text := joinSpace detail_content
    if decide (500 < detail_text.length) then detail_text.take 500 ++ ("...".toList)
    else detail_text

/-- The More Info collection loop of `smart_classify_content`. -/
def moreInfoCollect (all_formatted_text : List (List Char))
    (used_lines : List (List Char)) : List Char :=
  let info_content := all_formatted_text.filterMap (fun line =>
    let line_clean := pyStrip line
    if line_clean.isEmpty || used_lines.contains line_clean then none
    else
      let lower := pyLower line_clean
      if [("publisher".toList), ("isbn".toList), ("pages".toList), ("price".toList),
          ("format".toList),
          ("出版社".toList), ("頁數".toList), ("價格".toList), ("格式".toList),
          ("版權".toList)].any (fun kw => isSubstring kw lower) then
        some line_clean
      else none)
  if info_content.isEmpty then [] else joinSpace info_content

/-- The category detection of `smart_classify_content`: priority-ordered
substring checks over the full concatenated text. -/
def categoryOf (all_formatted_text : List (List Char)) : List Char :=
  let full_text := joinSpace all_formatted_text
  let full_text_lower := pyLower full_text
  if isSubstring ("comic".toList) full_text_lower ||
      isSubstring ("manga".toList) full_text_lower ||
      isSubstring ("漫畫".toList) full_text then ("漫畫類".toList)
  else if isSubstring ("novel".toList) full_text_lower ||
      isSubstring ("小說".toList) full_text then ("小說類".toList)
  else if isSubstring ("textbook".toList) full_text_lower ||
      isSubstring ("教科書".toList) full_text then ("教育類".toList)
  else []

/-- The record returned by `smart_classify_content` (`classified_data`). -/
structure ClassifiedData where
  Title : List Char
  ChineseTitle : List Char  -- source key: the CJK localized-title column
  Category : List Char
  Author : List Char
  Translator : List Char
  Illustrator : List Char
  Detail : List Char
  RightsSold : List Char
  MoreInfo : List Char
  Tags : List Char
  deriving DecidableEq

/-- The formatted-and-cleaned line list `all_formatted_text` of
`smart_classify_content`. -/
def allFormattedText (text_blocks : List TextBlock) : List (List Char) :=
  (cleanAndMergeParagraphs text_blocks).map
    (fun block => cleanTextContent (applyHtmlFormatting block))

/-- `AdvancedPDFExtractor.smart_classify_content(text_blocks)`, assembled
from the stage functions above in the order of the source: merge, sort,
format, title, localized title, person loop, Detail, More Info, category.
`Rights Sold` and `Tags` are never assigned and stay empty. -/
def smartClassifyContent (text_blocks : List TextBlock) : ClassifiedData :=
  let merged_blocks := cleanAndMergeParagraphs text_blocks
  let sorted_blocks := sortByKeyDesc (fun b => b.avg_font_size) merged_blocks
  let all_formatted_text := allFormattedText text_blocks
  let title := titleSelect sorted_blocks
  let chinese := chineseTitleSelect merged_blocks title
  let ps := personLoop all_formatted_text
  { Title := title
    ChineseTitle := chinese
    Category := categoryOf all_formatted_text
    Author := ps.author
    Translator := ps.translator
    Illustrator := ps.illustrator
    Detail := detailCollect all_formatted_text ps.used_lines title chinese
                ps.author ps.translator ps.illustrator
    RightsSold := []
    MoreInfo := moreInfoCollect all_formatted_text ps.used_lines
    Tags := [] }

/-! ### Concrete inputs used by the claim theorems -/

/-- A single-fragment input whose only line contains both an author keyword
(`by`) and a translator keyword (`translated by`). -/
def dualKeywordBlocks : List TextBlock :=
  [⟨("translated by John 23".toList),
    [⟨("translated by John 23".toList), false, false⟩], 12⟩]

/-- Scenario A of the specification: a large bold heading fragment followed
by a small-font continuation fragment. -/
def scenarioABlocks : List TextBlock :=
  [⟨("Chapter One: Origins".toList),
    [⟨("Chapter One: Origins".toList), false, true⟩], 18⟩,
   ⟨("is a story of courage.".toList),
    [⟨("is a story of courage.".toList), false, false⟩], 12⟩]

/-- Scenario B of the specification: three same-size fragments, every span
italic. -/
def scenarioBBlocks : List TextBlock :=
  [⟨("In 1977, Ah Wen had been on the other side of history: recruited as a".toList),
    [⟨("In 1977, Ah Wen had been on the other side of history: recruited as a".toList),
      true, false⟩], 12⟩,
   ⟨("spy. His assignment was to infiltrate the campaign headquarters".toList),
    [⟨("spy. His assignment was to infiltrate the campaign headquarters".toList),
      true, false⟩], 12⟩,
   ⟨("of an independent candidate.".toList),
    [⟨("of an independent candidate.".toList), true, false⟩], 12⟩]

/-- Scenario C of the specification: a translator line with a
comma-separated name list and trailing page digits. -/
def scenarioCBlocks : List TextBlock :=
  [⟨("Translator: Chen-Yu Chang, Noax Tao and Lee-Hang Chen 23".toList),
    [⟨("Translator: Chen-Yu Chang, Noax Tao and Lee-Hang Chen 23".toList),
      false, false⟩], 12⟩]

/-- The merge condition exactly as the claim about `_should_merge_texts`
states it (a specification-side definition, to be compared with the code's
behaviour): the open paragraph's text ends in a comma or CJK comma, or
contains no sentence-terminal punctuation anywhere. -/
def claimC2MergeCond (t1 : List Char) : Bool :=
  endsSatisfying (fun c => c == ',' || c == '，') t1 || !t1.any isTerminalPunct

/-- 1 if a paragraph is currently open, 0 otherwise (used to count the
blocks held by the reconstruction loop's state). -/
def optCount : Option TextBlock → Nat
  | some _ => 1
  | none => 0

/-! ### Claim theorems -/

set_option maxRecDepth 100000

/-- C1 (counterexample): the claim "no two of Author, Translator and
Illustrator are extracted from the same formatted source line" is false:
for the single-line input `"translated by John 23"` (the only line of the
document), `smart_classify_content` extracts both `Author = "John"` (via
the author keyword `by`) and `Translator = "John"` (via the translator
keyword `translated by`) — two person fields drawn from the same source
line. -/
theorem C1_counterexample :
    (smartClassifyContent dualKeywordBlocks).Author = ("John".toList) ∧
      (smartClassifyContent dualKeywordBlocks).Translator = ("John".toList) := by
  constructor <;> decide

/-- C1 (amended): a line that is already in `used_lines` (consumed by a
person field in an earlier iteration of the scan) is skipped entirely, so
it cannot feed a person field in any later iteration; the consumption
check happens only at the top of an iteration, so fields checked later
within the same iteration may still reuse the line. -/
theorem C1_amended (ps : PersonState) (line : List Char)
    (h : ps.used_lines.contains (pyStrip line) = true) :
    personStep ps line = ps := by
  have hm : pyStrip line ∈ ps.used_lines := by simpa using h
  unfold personStep
  simp [hm]

/-- Witness for `C1_amended` at a concrete consumed line. -/
theorem C1_amended_witness :
    (PersonState.mk [] [] [] [("Author: X 1".toList)]).used_lines.contains
        (pyStrip ("Author: X 1".toList)) = true ∧
      personStep ⟨[], [], [], [("Author: X 1".toList)]⟩ ("Author: X 1".toList) =
        ⟨[], [], [], [("Author: X 1".toList)]⟩ :=
  ⟨by decide, C1_amended ⟨[], [], [], [("Author: X 1".toList)]⟩ ("Author: X 1".toList) (by decide)⟩

/-- C2 (counterexample): the claimed "merge iff the open text ends in a
comma/CJK comma or contains no sentence-terminal punctuation" is false on
two counts.  For `t1 = "a. b-"` (no terminal ending) and `t2 = "Xyz"`
(uppercase Latin start) the code merges — the trailing hyphen satisfies the
code's `[,，\-\s]$` check — although the claim's condition is false.  And
for `t2 = "中文字"` (CJK start) the code does not even take the uppercase
branch (`^[A-Z]` is Latin-only): with `t1 = "hello there. x"` it merges via
the both-short rule although the claim's condition is false. -/
theorem C2_counterexample :
    (endsSatisfying isTerminalPunct ("a. b-".toList) = false ∧
      startsSatisfying isUpperLatin ("Xyz".toList) = true ∧
      shouldMergeTexts ("a. b-".toList) ("Xyz".toList) = true ∧
      claimC2MergeCond ("a. b-".toList) = false) ∧
    (endsSatisfying isTerminalPunct ("hello there. x".toList) = false ∧
      startsSatisfying isCJK ("中文字".toList) = true ∧
      shouldMergeTexts ("hello there. x".toList) ("中文字".toList) = true ∧
      claimC2MergeCond ("hello there. x".toList) = false) := by
  constructor <;> refine ⟨by decide, by decide, by decide, by decide⟩

/-- C2 (amended): when the open paragraph's stripped text does not end in
sentence-terminal punctuation and the incoming stripped text starts with an
uppercase **Latin** letter (a CJK start falls through to the later rules),
`_should_merge_texts` merges iff the open text ends in a comma, CJK comma,
hyphen or whitespace, **or** is shorter than 30 characters, **or** contains
no sentence-terminal punctuation anywhere. -/
theorem C2_amended (text1 text2 : List Char)
    (h1 : endsSatisfying isTerminalPunct (pyStrip text1) = false)
    (h2 : startsSatisfying isUpperLatin (pyStrip text2) = true) :
    shouldMergeTexts text1 text2 =
      (endsSatisfying (fun c => c == ',' || c == '，' || c == '-' || pyIsSpace c)
          (pyStrip text1) ||
        decide ((pyStrip text1).length < 30) ||
        !(pyStrip text1).any isTerminalPunct) := by
  unfold shouldMergeTexts
  simp only [h1, h2, Bool.false_eq_true, if_false, if_true]

/-- Witness for `C2_amended` on a concrete truncated-looking line. -/
theorem C2_amended_witness :
    endsSatisfying isTerminalPunct (pyStrip ("went to,".toList)) = false ∧
      startsSatisfying isUpperLatin (pyStrip ("Berlin".toList)) = true ∧
      shouldMergeTexts ("went to,".toList) ("Berlin".toList) =
        (endsSatisfying (fun c => c == ',' || c == '，' || c == '-' || pyIsSpace c)
            (pyStrip ("went to,".toList)) ||
          decide ((pyStrip ("went to,".toList)).length < 30) ||
          !(pyStrip ("went to,".toList)).any isTerminalPunct) :=
  ⟨by decide, by decide,
    C2_amended ("went to,".toList) ("Berlin".toList) (by decide) (by decide)⟩

/-- C3 (counterexample): the claim "the two-fragment Scenario A input
yields two paragraphs" is false: reconstruction returns a single
paragraph. -/
theorem C3_counterexample :
    (cleanAndMergeParagraphs scenarioABlocks).length ≠ 2 := by decide

/-- C3 (amended): on Scenario A the first fragment opens a paragraph and
the second fragment — small font, not bold, starting with a lowercase
letter — **is** merged into it, so reconstruction returns one paragraph
with the space-joined text. -/
theorem C3_amended :
    (cleanAndMergeParagraphs scenarioABlocks).map TextBlock.text =
      [("Chapter One: Origins is a story of courage.".toList)] := by decide

/-- C4: evaluating `smart_classify_content` at the Scenario C line
`"Translator: Chen-Yu Chang, Noax Tao and Lee-Hang Chen 23"` leaves the
Translator field empty, contradicting the specified result "Chen-Yu Chang,
Noax Tao and Lee-Hang Chen".  The extraction regex
`translator[:\s]*([^,\n]+?)(?:\s*\d+\s*$|$)` cannot match: the captured
group may not contain a comma, yet its tail must reach the end of the
line, so the comma after "Chang" blocks every candidate match. -/
theorem C4_code_eval :
    (smartClassifyContent scenarioCBlocks).Translator = [] := by decide

/-- C5 (counterexample): the claim "the merged Scenario B paragraph is
wrapped exactly once as a whole in `<i>...</i>`" is false: formatting the
reconstructed paragraph does not produce the single whole-text wrap. -/
theorem C5_counterexample :
    (cleanAndMergeParagraphs scenarioBBlocks).map applyHtmlFormatting ≠
      [("<i>In 1977, Ah Wen had been on the other side of history: recruited as a " ++
        "spy. His assignment was to infiltrate the campaign headquarters " ++
        "of an independent candidate.</i>").toList] := by decide

/-- C5 (amended): Scenario B reconstructs to exactly one paragraph whose
text is the three fragment texts joined with single spaces, but the markup
formatter wraps each contributing italic span's text individually, so the
result carries three `<i>...</i>` wraps rather than one whole-text wrap. -/
theorem C5_amended :
    (cleanAndMergeParagraphs scenarioBBlocks).map applyHtmlFormatting =
      [("<i>In 1977, Ah Wen had been on the other side of history: recruited as a</i> " ++
        "<i>spy. His assignment was to infiltrate the campaign headquarters</i> " ++
        "<i>of an independent candidate.</i>").toList] := by decide

/-- C8: the empty fragment sequence classifies to the all-empty record;
every field of the result is the empty string.  (The embedding is total by
construction, which is the shallow counterpart of "never raises for
well-formed input": each field simply stays empty when no candidate is
found, as here.) -/
theorem C8_empty_input :
    smartClassifyContent [] = ⟨[], [], [], [], [], [], [], [], [], []⟩ := by decide

/-- If the (already-stripped) open text ends in a hyphen,
`_should_merge_texts` merges regardless of the incoming text: every branch
of the decision accepts a trailing hyphen. -/
theorem shouldMerge_of_hyphen_end (t1 t2 : List Char) (h1 : pyStrip t1 = t1)
    (hend : t1.getLast? = some '-') : shouldMergeTexts t1 t2 = true := by
  have e1 : endsSatisfying isTerminalPunct (pyStrip t1) = false := by
    rw [h1]; unfold endsSatisfying; rw [hend]; rfl
  have e2 : endsSatisfying (fun c => c == ',' || c == '，' || c == '-' || pyIsSpace c)
      (pyStrip t1) = true := by
    rw [h1]; unfold endsSatisfying; rw [hend]; rfl
  have e3 : endsSatisfying (fun c => c == '-' || c == ',' || c == '，' || pyIsSpace c)
      (pyStrip t1) = true := by
    rw [h1]; unfold endsSatisfying; rw [hend]; rfl
  simp [shouldMergeTexts, e1, e2, e3]

/-- C6: for fragments `F1`, `F2` with trimmed non-empty texts (the Fragment
data model: `text` is a trimmed, non-empty string), where `F1`'s text ends
with a hyphen and `F2` is not a new-paragraph trigger, reconstruction of
`[F1, F2]` yields one paragraph whose text is `F1`'s text with the trailing
hyphen dropped, directly concatenated with `F2`'s text — no space is
inserted. -/
theorem C6_hyphen_join (F1 F2 : TextBlock)
    (h1 : pyStrip F1.text = F1.text)
    (h2 : pyStrip F2.text = F2.text)
    (hend : F1.text.getLast? = some '-')
    (hne2 : F2.text ≠ [])
    (hnp : isNewParagraph F2.text F2 = false) :
    (cleanAndMergeParagraphs [F1, F2]).map TextBlock.text =
      [F1.text.dropLast ++ F2.text] := by
  have hne1 : F1.text ≠ [] := by
    intro h; rw [h] at hend; simp at hend
  have hemp1 : (pyStrip F1.text).isEmpty = false := by
    rw [h1]
    cases hx : F1.text with
    | nil => exact absurd hx hne1
    | cons a l => simp
  have hemp2 : (pyStrip F2.text).isEmpty = false := by
    rw [h2]
    cases hx : F2.text with
    | nil => exact absurd hx hne2
    | cons a l => simp
  have hnp' : isNewParagraph (pyStrip F2.text) F2 = false := by rw [h2]; exact hnp
  have hmerge : shouldMergeTexts F1.text (pyStrip F2.text) = true := by
    rw [h2]; exact shouldMerge_of_hyphen_end F1.text F2.text h1 hend
  have ehy : endsSatisfying (fun c => c == '-') F1.text = true := by
    unfold endsSatisfying; rw [hend]; rfl
  have hjoin : smartJoinTexts F1.text (pyStrip F2.text) =
      F1.text.dropLast ++ F2.text := by
    simp only [smartJoinTexts, h2, h1, ehy, if_true]
  have s1 : cleanStep ([], none) F1 = ([], some F1) := by
    unfold cleanStep
    simp [hemp1]
  unfold cleanAndMergeParagraphs
  rw [List.foldl_cons, s1, List.foldl_cons, List.foldl_nil]
  unfold cleanStep
  simp [hemp2, hnp', hmerge, hjoin]

/-- Witness for `C6_hyphen_join` on the concrete split word `hy-` / `phen`. -/
theorem C6_hyphen_join_witness :
    pyStrip ("hy-".toList) = ("hy-".toList) ∧
      pyStrip ("phen".toList) = ("phen".toList) ∧
      (("hy-".toList)).getLast? = some '-' ∧
      ("phen".toList) ≠ [] ∧
      isNewParagraph ("phen".toList) ⟨("phen".toList), [], 12⟩ = false ∧
      (cleanAndMergeParagraphs
        [⟨("hy-".toList), [], 12⟩, ⟨("phen".toList), [], 12⟩]).map TextBlock.text =
        [(("hy-".toList)).dropLast ++ ("phen".toList)] :=
  ⟨by decide, by decide, by decide, by decide, by decide,
    C6_hyphen_join ⟨("hy-".toList), [], 12⟩ ⟨("phen".toList), [], 12⟩
      (by decide) (by decide) (by decide) (by decide) (by decide)⟩

/-- The Detail value produced by `detailCollect` never exceeds 503
characters: either the accumulated text fits in 500 characters, or it is
cut to its first 500 characters plus the three-character ellipsis. -/
theorem detailCollect_length_le (all_formatted_text : List (List Char))
    (used_lines : List (List Char))
    (title chinese author translator illustrator : List Char) :
    (detailCollect all_formatted_text used_lines title chinese author translator
        illustrator).length ≤ 503 := by
  simp only [detailCollect]
  split
  · simp
  · split
    · simp [List.length_take]
    · next h =>
      simp only [decide_eq_true_eq, not_lt] at h
      omega

/-- C7: for every input, the `Detail` field of `smart_classify_content` has
length at most 503 characters (500 plus the `...` suffix); below the 500
bound the accumulated text is stored unchanged. -/
theorem C7_detail_bound (text_blocks : List TextBlock) :
    (smartClassifyContent text_blocks).Detail.length ≤ 503 :=
  detailCollect_length_le _ _ _ _ _ _ _

/-- If every character of `s` is whitespace, stripping gives the empty
string. -/
theorem pyStrip_eq_nil_of_all_space (s : List Char)
    (h : ∀ c ∈ s, pyIsSpace c = true) : pyStrip s = [] := by
  unfold pyStrip
  rw [List.dropWhile_eq_nil_iff.mpr h]
  rfl

/-- If stripping `s` leaves something, `s` contains a non-whitespace
character. -/
theorem any_ink_of_pyStrip_ne_nil (s : List Char)
    (h : (pyStrip s).isEmpty = false) :
    s.any (fun c => !pyIsSpace c) = true := by
  by_contra hc
  have hall : ∀ c ∈ s, pyIsSpace c = true := by
    intro c hm
    by_contra hcs
    have : (!pyIsSpace c) = true := by
      simp only [Bool.not_eq_true] at hcs ⊢
      simpa using hcs
    exact hc (List.any_eq_true.mpr ⟨c, hm, this⟩)
  rw [pyStrip_eq_nil_of_all_space s hall] at h
  simp at h

/-- Non-whitespace characters survive stripping. -/
theorem mem_pyStrip_of_not_space {c : Char} {s : List Char} (hm : c ∈ s)
    (hc : pyIsSpace c = false) : c ∈ pyStrip s := by
  have step : ∀ (l : List Char), c ∈ l → c ∈ l.dropWhile pyIsSpace := by
    intro l hml
    have hsplit := List.takeWhile_append_dropWhile (p := pyIsSpace) (l := l)
    rw [← hsplit] at hml
    rcases List.mem_append.mp hml with h | h
    · exact absurd (List.mem_takeWhile_imp h) (by simp [hc])
    · exact h
  unfold pyStrip
  exact List.mem_reverse.mpr (step _ (List.mem_reverse.mpr (step s hm)))

/-- A string with a non-whitespace character keeps one after stripping. -/
theorem any_ink_pyStrip (s : List Char)
    (h : s.any (fun c => !pyIsSpace c) = true) :
    (pyStrip s).any (fun c => !pyIsSpace c) = true := by
  rcases List.any_eq_true.mp h with ⟨c, hm, hc⟩
  have hc' : pyIsSpace c = false := by simpa using hc
  exact List.any_eq_true.mpr ⟨c, mem_pyStrip_of_not_space hm hc', by simp [hc']⟩

/-- Every branch of `_smart_join_texts` appends the stripped second text,
so the joined text keeps a non-whitespace character of the second text. -/
theorem smartJoin_any_ink (t1 t2 : List Char)
    (h : t2.any (fun c => !pyIsSpace c) = true) :
    (smartJoinTexts t1 t2).any (fun c => !pyIsSpace c) = true := by
  have h2 := any_ink_pyStrip t2 h
  simp only [smartJoinTexts]
  split
  · simp [List.any_append, h2]
  · split
    · simp [List.any_append, h2]
    · split
      · simp [List.any_append, h2]
      · split
        · simp [List.any_append, h2]
        · simp [List.any_append, h2]

/-- One step of the reconstruction loop: the held block count grows by at
most one, and all held blocks keep a non-whitespace character. -/
theorem cleanStep_bound (acc : List TextBlock × Option TextBlock) (hd : TextBlock)
    (hm : ∀ b ∈ acc.1, b.text.any (fun c => !pyIsSpace c) = true)
    (hc : ∀ b, acc.2 = some b → b.text.any (fun c => !pyIsSpace c) = true) :
    ((cleanStep acc hd).1.length + optCount (cleanStep acc hd).2 ≤
        acc.1.length + optCount acc.2 + 1) ∧
      (∀ b ∈ (cleanStep acc hd).1, b.text.any (fun c => !pyIsSpace c) = true) ∧
      (∀ b, (cleanStep acc hd).2 = some b →
        b.text.any (fun c => !pyIsSpace c) = true) := by
  simp only [cleanStep]
  split
  · exact ⟨by omega, hm, hc⟩
  · next hne =>
    have hink : hd.text.any (fun c => !pyIsSpace c) = true :=
      any_ink_of_pyStrip_ne_nil hd.text (by simpa using hne)
    split
    · next heq =>
      refine ⟨by simp [optCount, heq], hm, ?_⟩
      intro b hb
      injection hb with hb
      rw [← hb]; exact hink
    · next current heq =>
      have hcur : current.text.any (fun c => !pyIsSpace c) = true := hc current heq
      have hmem : ∀ b ∈ acc.1 ++ [current],
          b.text.any (fun c => !pyIsSpace c) = true := by
        intro b hb
        rcases List.mem_append.mp hb with h | h
        · exact hm b h
        · rw [List.mem_singleton.mp h]; exact hcur
      split
      · refine ⟨by simp [optCount, heq], hmem, ?_⟩
        intro b hb
        injection hb with hb
        rw [← hb]; exact hink
      · split
        · refine ⟨by simp [optCount, heq], hm, ?_⟩
          intro b hb
          injection hb with hb
          rw [← hb]
          exact smartJoin_any_ink current.text (pyStrip hd.text)
            (any_ink_pyStrip hd.text hink)
        · refine ⟨by simp [optCount, heq], hmem, ?_⟩
          intro b hb
          injection hb with hb
          rw [← hb]; exact hink

/-- Loop invariant of `clean_and_merge_paragraphs`: after folding any
suffix of blocks, the held block count has grown by at most the number of
blocks consumed, and every held block has a non-whitespace character. -/
theorem cleanFold_invariant (l : List TextBlock) :
    ∀ (acc : List TextBlock × Option TextBlock),
      (∀ b ∈ acc.1, b.text.any (fun c => !pyIsSpace c) = true) →
      (∀ b, acc.2 = some b → b.text.any (fun c => !pyIsSpace c) = true) →
      ((l.foldl cleanStep acc).1.length + optCount (l.foldl cleanStep acc).2 ≤
          acc.1.length + optCount acc.2 + l.length) ∧
        (∀ b ∈ (l.foldl cleanStep acc).1,
          b.text.any (fun c => !pyIsSpace c) = true) ∧
        (∀ b, (l.foldl cleanStep acc).2 = some b →
          b.text.any (fun c => !pyIsSpace c) = true) := by
  induction l with
  | nil => intro acc hm hc; exact ⟨by simp, hm, hc⟩
  | cons hd tl ih =>
    intro acc hm hc
    obtain ⟨hs1, hs2, hs3⟩ := cleanStep_bound acc hd hm hc
    obtain ⟨h1, h2, h3⟩ := ih (cleanStep acc hd) hs2 hs3
    rw [List.foldl_cons]
    refine ⟨?_, h2, h3⟩
    simp only [List.length_cons]
    omega

/-- C9: paragraph reconstruction returns at most as many paragraphs as
there were input fragments, and every returned paragraph's text contains a
non-whitespace character (empty or whitespace-only fragments are skipped
and never appear in or start a paragraph). -/
theorem C9_length_and_ink (text_blocks : List TextBlock) :
    (cleanAndMergeParagraphs text_blocks).length ≤ text_blocks.length ∧
      (cleanAndMergeParagraphs text_blocks).all
        (fun b => b.text.any (fun c => !pyIsSpace c)) = true := by
  have main : ∀ (res : List TextBlock × Option TextBlock),
      res.1.length + optCount res.2 ≤ text_blocks.length →
      (∀ b ∈ res.1, b.text.any (fun c => !pyIsSpace c) = true) →
      (∀ b, res.2 = some b → b.text.any (fun c => !pyIsSpace c) = true) →
      (res.1 ++ match res.2 with | some c => [c] | none => []).length ≤
          text_blocks.length ∧
        ∀ b ∈ res.1 ++ (match res.2 with | some c => [c] | none => []),
          b.text.any (fun c => !pyIsSpace c) = true := by
    rintro ⟨res1, res2⟩ hlen hm hcur
    cases res2 with
    | none =>
      simp only [optCount] at hlen
      refine ⟨by simpa using hlen, ?_⟩
      intro b hb
      simp only [List.append_nil] at hb
      exact hm b hb
    | some c =>
      simp only [optCount] at hlen
      refine ⟨by simpa using hlen, ?_⟩
      intro b hb
      rcases List.mem_append.mp hb with h | h
      · exact hm b h
      · rw [List.mem_singleton.mp h]
        exact hcur c rfl
  obtain ⟨h1, h2, h3⟩ :=
    cleanFold_invariant text_blocks ([], none) (by simp) (by simp)
  obtain ⟨hlen, hmem⟩ :=
    main (text_blocks.foldl cleanStep ([], none)) (by simpa [optCount] using h1) h2 h3
  exact ⟨hlen, List.all_eq_true.mpr hmem⟩

/-- Folding `min` is monotone in its starting value. -/
theorem foldl_min_mono (l : List ℚ) :
    ∀ a b : ℚ, a ≤ b → l.foldl min a ≤ l.foldl min b := by
  induction l with
  | nil => intro a b h; simpa using h
  | cons x xs ih =>
    intro a b h
    simp only [List.foldl_cons]
    exact ih _ _ (min_le_min h le_rfl)

/-- Folding `max` is monotone in its starting value. -/
theorem foldl_max_mono (l : List ℚ) :
    ∀ a b : ℚ, a ≤ b → l.foldl max a ≤ l.foldl max b := by
  induction l with
  | nil => intro a b h; simpa using h
  | cons x xs ih =>
    intro a b h
    simp only [List.foldl_cons]
    exact ih _ _ (max_le_max h le_rfl)

/-- The pairwise average never falls below the smaller operand. -/
theorem min_le_mergeAvg (a b : ℚ) : min a b ≤ mergeAvg a b := by
  unfold mergeAvg
  rcases le_total a b with h | h
  · rw [min_eq_left h]; linarith
  · rw [min_eq_right h]; linarith

/-- The pairwise average never exceeds the larger operand. -/
theorem mergeAvg_le_max (a b : ℚ) : mergeAvg a b ≤ max a b := by
  unfold mergeAvg
  rcases le_total a b with h | h
  · rw [max_eq_right h]; linarith
  · rw [max_eq_left h]; linarith

/-- C10: starting from the first contributing fragment's average `s0` and
folding the merge update `new = (current + incoming) / 2` over any sequence
of incoming fragment averages, the resulting `avg_font_size` stays between
the minimum and the maximum of all contributing values (which are
`List.foldl min s0 sizes` and `List.foldl max s0 sizes`). -/
theorem C10_avg_between (s0 : ℚ) (sizes : List ℚ) :
    sizes.foldl min s0 ≤ sizes.foldl mergeAvg s0 ∧
      sizes.foldl mergeAvg s0 ≤ sizes.foldl max s0 := by
  induction sizes generalizing s0 with
  | nil => exact ⟨le_rfl, le_rfl⟩
  | cons x xs ih =>
    simp only [List.foldl_cons]
    obtain ⟨ihl, ihr⟩ := ih (mergeAvg s0 x)
    constructor
    · exact le_trans (foldl_min_mono xs _ _ (min_le_mergeAvg s0 x)) ihl
    · exact le_trans ihr (foldl_max_mono xs _ _ (mergeAvg_le_max s0 x))
